import Mathlib

/-!
# webdav-rs / webdav-xml — verification of the element conversion layer

A shallow embedding of the `webdav-xml` crate's typed XML element layer:
the Document Value tree, the qualified-name-keyed Value Map, and the
per-element extraction (`TryFrom<&Value>`) and insertion (`From<T> for Value`)
functions from `src/webdav-xml/src/elements/`.

The crate's core (`Value`, `ValueMap`, the error type, `Href`, `Properties`)
is not among the provided sources; those few definitions are modelled from
the specification (marked `Modelled from the spec:`).  Every element
conversion is translated directly from its source file.
-/

namespace WebdavXml

/-- Modelled from the spec: a Qualified Name, `(namespace, local name)`;
the presentation prefix never participates in equality or lookup. -/
structure ElementName where
  ns : String
  localName : String
deriving DecidableEq, Repr

/-- Modelled from the spec: the Document Value tagged union with exactly four
variants (`Empty`, `Text`, `Map`, `List`); a Value Map is an ordered list of
(Qualified Name, Value) entries with unique keys. -/
inductive Value where
  | empty : Value
  | text (s : String) : Value
  | map (entries : List (ElementName × Value)) : Value
  | list (items : List Value) : Value

abbrev ValueMap := List (ElementName × Value)

/-- Modelled from the spec: Value Map lookup by Qualified Name
(first matching key; keys are unique by invariant). -/
def vmGet : ValueMap → ElementName → Option Value
  | [], _ => none
  | (k, v) :: rest, k0 => if k = k0 then some v else vmGet rest k0

/-- Modelled from the spec: Value Map insertion; re-insertion under an
existing key replaces the prior entry in place, otherwise the new entry is
appended, preserving insertion order. -/
def vmInsert : ValueMap → ElementName → Value → ValueMap
  | [], k0, v0 => [(k0, v0)]
  | (k, v) :: rest, k0, v0 =>
    if k = k0 then (k0, v0) :: rest else (k, v) :: vmInsert rest k0 v0

/-- The extraction error taxonomy (`ExtractElementErrorKind`); the closed set
of failure kinds used by every element's `TryFrom<&Value>` implementation. -/
inductive ExtractErrorKind where
  | missingElement (name : String)
  | conflictingElements (names : List String)
  | invalidValueType (expected got : String)
  | other (msg : String)
deriving DecidableEq, Repr

/-- The variant name reported in `InvalidValueType { got }`, exactly as the
`match value` arms in `depth.rs` spell it. -/
def valueKindName : Value → String
  | .empty => "empty"
  | .text _ => "text"
  | .map _ => "map"
  | .list _ => "list"

/-- Modelled from the spec: `Value::to_map`, failing with
`InvalidValueType { expected: "map", got: <actual> }` on non-`Map` input. -/
def toMap : Value → Except ExtractErrorKind ValueMap
  | .map m => .ok m
  | v => .error (.invalidValueType "map" (valueKindName v))

/-- Modelled from the spec: `Value::to_text`, failing with
`InvalidValueType { expected: "text", got: <actual> }` on non-`Text` input. -/
def toText : Value → Except ExtractErrorKind String
  | .text s => .ok s
  | v => .error (.invalidValueType "text" (valueKindName v))

/-- Modelled from the spec: the typed accessor `ValueMap::get::<T>` — look up
T's Qualified Name; absent gives `none`, present runs T's extraction. -/
def vmGetE {α : Type} (ex : Value → Except ExtractErrorKind α)
    (k : ElementName) (m : ValueMap) : Option (Except ExtractErrorKind α) :=
  (vmGet m k).map ex

def davNS : String := "DAV:"

def nameActivelock : ElementName := ⟨davNS, "activelock"⟩
def nameLockscope : ElementName := ⟨davNS, "lockscope"⟩
def nameExclusive : ElementName := ⟨davNS, "exclusive"⟩
def nameShared : ElementName := ⟨davNS, "shared"⟩
def nameLocktype : ElementName := ⟨davNS, "locktype"⟩
def nameWrite : ElementName := ⟨davNS, "write"⟩
def nameDepth : ElementName := ⟨davNS, "depth"⟩
def nameOwner : ElementName := ⟨davNS, "owner"⟩
def nameLocktoken : ElementName := ⟨davNS, "locktoken"⟩
def nameLockroot : ElementName := ⟨davNS, "lockroot"⟩
def nameHref : ElementName := ⟨davNS, "href"⟩
def nameTimeout : ElementName := ⟨davNS, "timeout"⟩
def namePropertyupdate : ElementName := ⟨davNS, "propertyupdate"⟩
def nameSet : ElementName := ⟨davNS, "set"⟩
def nameRemove : ElementName := ⟨davNS, "remove"⟩
def nameProp : ElementName := ⟨davNS, "prop"⟩
def namePropfind : ElementName := ⟨davNS, "propfind"⟩
def namePropname : ElementName := ⟨davNS, "propname"⟩
def nameAllprop : ElementName := ⟨davNS, "allprop"⟩
def nameInclude : ElementName := ⟨davNS, "include"⟩

/-! ## Schema element types (from `src/webdav-xml/src/elements/`) -/

/-- `depth.rs`: the `depth` element. -/
inductive Depth where
  | zero
  | one
  | infinity
deriving DecidableEq, Repr

/-- `lockscope.rs`: the `exclusive` marker element. -/
structure Exclusive where
deriving DecidableEq, Repr

/-- `lockscope.rs`: the `shared` marker element. -/
structure Shared where
deriving DecidableEq, Repr

/-- `lockscope.rs`: the `lockscope` element, a one-of over
`exclusive` / `shared`. -/
inductive LockScope where
  | exclusive
  | shared
deriving DecidableEq, Repr

/-- `locktype.rs`: the `write` marker element. -/
structure Write where
deriving DecidableEq, Repr

/-- `locktype.rs`: the `locktype` element (`Write(Write)`). -/
inductive LockType where
  | write (w : Write)
deriving DecidableEq, Repr

/-- `timeout.rs`: the `timeout` element; `Seconds` holds a Rust `u32`
(a natural number below `2 ^ 32`). -/
inductive Timeout where
  | seconds (n : Nat)
  | infinite
deriving DecidableEq, Repr

/-- Modelled from the spec: the `href` element (missing from the provided
sources), a leaf carrying a URI as text. -/
structure Href where
  uri : String
deriving DecidableEq, Repr

/-- `owner.rs`: the `owner` element, a wrapper around an arbitrary
Value Map (`Owner(pub ValueMap)`). -/
structure Owner where
  entries : ValueMap

/-- Modelled from the spec: the `prop` element (`Properties`, from the missing
`prop.rs`), a wrapper around a Value Map of property names to values, with
extraction `to_map` and insertion `Value::Map` exactly like `Owner`. -/
structure Properties where
  entries : ValueMap

/-- `lockroot.rs`: the `lockroot` element. -/
structure LockRoot where
  href : Href
deriving DecidableEq, Repr

/-- `locktoken.rs`: the `locktoken` element. -/
structure LockToken where
  href : Href
deriving DecidableEq, Repr

/-- `activelock.rs`: the `activelock` record element. -/
structure ActiveLock where
  lockScope : LockScope
  lockType : LockType
  depth : Depth
  owner : Option Owner
  lockToken : Option LockToken
  lockRoot : LockRoot

/-- `lockentry.rs`: the `lockentry` record element. -/
structure LockEntry where
  lockScope : LockScope
  lockType : LockType
deriving DecidableEq, Repr

/-- `lockinfo.rs`: the `lockinfo` record element. -/
structure LockInfo where
  lockScope : LockScope
  lockType : LockType
  owner : Option Owner

/-- `propertyupdate.rs`: the `set` element. -/
structure Set where
  properties : Properties

/-- `propertyupdate.rs`: the `remove` element. -/
structure Remove where
  properties : Properties

/-- `propertyupdate.rs`: the `propertyupdate` record element with two
optional children. -/
structure PropertyUpdate where
  set : Option Set
  remove : Option Remove

/-- `propfind.rs`: the `propname` marker element. -/
structure Propname where
deriving DecidableEq, Repr

/-- `propfind.rs`: the `allprop` marker element. -/
structure Allprop where
deriving DecidableEq, Repr

/-- `propfind.rs`: the `include` element, `Include(Vec<ByteString>)`; both of
its Value conversions are `todo!()` stubs that panic when invoked. -/
structure Include where
  names : List String
deriving DecidableEq, Repr

/-- `propfind.rs`: the `propfind` element, a one-of over
`propname` / `allprop` (with optional `include`) / `prop`. -/
inductive Propfind where
  | propname
  | allprop (inc : Option Include)
  | prop (props : Properties)

/-! ## Extraction and insertion functions

Each pair is translated from the `TryFrom<&Value>` and `From<T> for Value`
implementations of the corresponding source file.  A Rust `todo!()` panic is
modelled by an `Option`-valued function returning `none`. -/

/-- `lockscope.rs`: `Exclusive::try_from` ignores its input entirely. -/
def extractExclusive (_ : Value) : Except ExtractErrorKind Exclusive :=
  .ok ⟨⟩

/-- `lockscope.rs`: `From<Exclusive> for Value` always yields `Empty`. -/
def valueOfExclusive (_ : Exclusive) : Value :=
  .empty

/-- `lockscope.rs`: `Shared::try_from` ignores its input entirely. -/
def extractShared (_ : Value) : Except ExtractErrorKind Shared :=
  .ok ⟨⟩

/-- `lockscope.rs`: `From<Shared> for Value` always yields `Empty`. -/
def valueOfShared (_ : Shared) : Value :=
  .empty

/-- `locktype.rs`: `Write::try_from` ignores its input entirely. -/
def extractWrite (_ : Value) : Except ExtractErrorKind Write :=
  .ok ⟨⟩

/-- `locktype.rs`: `From<Write> for Value` always yields `Empty`. -/
def valueOfWrite (_ : Write) : Value :=
  .empty

/-- `propfind.rs`: `Propname::try_from` ignores its input entirely. -/
def extractPropname (_ : Value) : Except ExtractErrorKind Propname :=
  .ok ⟨⟩

/-- `propfind.rs`: `From<Propname> for Value` always yields `Empty`. -/
def valueOfPropname (_ : Propname) : Value :=
  .empty

/-- `propfind.rs`: `Allprop::try_from` ignores its input entirely. -/
def extractAllprop (_ : Value) : Except ExtractErrorKind Allprop :=
  .ok ⟨⟩

/-- `propfind.rs`: `From<Allprop> for Value` always yields `Empty`. -/
def valueOfAllprop (_ : Allprop) : Value :=
  .empty

/-- `lockscope.rs`: `LockScope::try_from` — probe `exclusive` and `shared`;
exactly one present succeeds, otherwise `MissingElement("exclusive or shared")`. -/
def extractLockScope (v : Value) : Except ExtractErrorKind LockScope :=
  match toMap v with
  | .error e => .error e
  | .ok m =>
    match vmGetE extractExclusive nameExclusive m, vmGetE extractShared nameShared m with
    | some _, none => .ok .exclusive
    | none, some _ => .ok .shared
    | _, _ => .error (.missingElement "exclusive or shared")

/-- `lockscope.rs`: `From<LockScope> for Value`. -/
def valueOfLockScope : LockScope → Value
  | .exclusive => .map (vmInsert [] nameExclusive (valueOfExclusive ⟨⟩))
  | .shared => .map (vmInsert [] nameShared (valueOfShared ⟨⟩))

/-- `locktype.rs`: `LockType::try_from`. -/
def extractLockType (v : Value) : Except ExtractErrorKind LockType :=
  match toMap v with
  | .error e => .error e
  | .ok m =>
    match vmGetE extractWrite nameWrite m with
    | some (.ok w) => .ok (.write w)
    | some (.error e) => .error e
    | none => .error (.missingElement "write")

/-- `locktype.rs`: `From<LockType> for Value`. -/
def valueOfLockType : LockType → Value
  | .write w => .map (vmInsert [] nameWrite (valueOfWrite w))

/-- `depth.rs`: `Depth::try_from` — exact literal match on `0`, `1`,
`infinity`; other text is `Other(..)`, non-text is `InvalidValueType`. -/
def extractDepth (v : Value) : Except ExtractErrorKind Depth :=
  match v with
  | .text t =>
    if t = "0" then .ok .zero
    else if t = "1" then .ok .one
    else if t = "infinity" then .ok .infinity
    else .error (.other "depth element must have value of 0, 1, or infinity")
  | v => .error (.invalidValueType "text" (valueKindName v))

/-- `depth.rs`: `From<Depth> for Value`. -/
def valueOfDepth : Depth → Value
  | .zero => .text "0"
  | .one => .text "1"
  | .infinity => .text "infinity"

/-- Modelled from the spec: `Href::try_from` (the `href` source is missing) —
a leaf text element wrapping the URI. -/
def extractHref (v : Value) : Except ExtractErrorKind Href :=
  match toText v with
  | .ok s => .ok ⟨s⟩
  | .error e => .error e

/-- Modelled from the spec: `From<Href> for Value`. -/
def valueOfHref (h : Href) : Value :=
  .text h.uri

/-- `owner.rs`: `Owner::try_from` is `value.to_map().cloned().map(Self)`. -/
def extractOwner (v : Value) : Except ExtractErrorKind Owner :=
  match toMap v with
  | .ok m => .ok ⟨m⟩
  | .error e => .error e

/-- `owner.rs`: `From<Owner> for Value`. -/
def valueOfOwner (o : Owner) : Value :=
  .map o.entries

/-- Modelled from the spec: `Properties::try_from` (the `prop` source is
missing) — a map wrapper extracted via `to_map`, like `Owner`. -/
def extractProperties (v : Value) : Except ExtractErrorKind Properties :=
  match toMap v with
  | .ok m => .ok ⟨m⟩
  | .error e => .error e

/-- Modelled from the spec: `From<Properties> for Value`. -/
def valueOfProperties (p : Properties) : Value :=
  .map p.entries

/-- `lockroot.rs`: `LockRoot::try_from`. -/
def extractLockRoot (v : Value) : Except ExtractErrorKind LockRoot :=
  match toMap v with
  | .error e => .error e
  | .ok m =>
    match vmGetE extractHref nameHref m with
    | some (.ok h) => .ok ⟨h⟩
    | some (.error e) => .error e
    | none => .error (.missingElement "href")

/-- `lockroot.rs`: `From<LockRoot> for Value`. -/
def valueOfLockRoot (lr : LockRoot) : Value :=
  .map (vmInsert [] nameHref (valueOfHref lr.href))

/-- `locktoken.rs`: `LockToken::try_from`. -/
def extractLockToken (v : Value) : Except ExtractErrorKind LockToken :=
  match toMap v with
  | .error e => .error e
  | .ok m =>
    match vmGetE extractHref nameHref m with
    | some (.ok h) => .ok ⟨h⟩
    | some (.error e) => .error e
    | none => .error (.missingElement "href")

/-- `locktoken.rs`: `From<LockToken> for Value`. -/
def valueOfLockToken (lt : LockToken) : Value :=
  .map (vmInsert [] nameHref (valueOfHref lt.href))

/-! ### Decimal text for `timeout`

`timeout.rs` renders seconds with `format!("Second-{}", seconds)` and reads
them back with `str::parse::<u32>`.  Both directions are modelled over the
character list of the text. -/

/-- The decimal digit character for `d < 10` (Rust's `{}` formatting of an
unsigned integer). -/
def digitChar (d : Nat) : Char :=
  Char.ofNat (48 + d)

/-- Fuel-indexed decimal rendering; `fuel` bounds the digit count. -/
def toDecimalAux : Nat → Nat → List Char
  | 0, _ => []
  | fuel + 1, n =>
    if n < 10 then [digitChar n]
    else toDecimalAux fuel (n / 10) ++ [digitChar (n % 10)]

/-- The decimal rendering of `n`, most significant digit first, as produced
by Rust's `{}` formatting. -/
def toDecimal (n : Nat) : List Char :=
  toDecimalAux (n + 1) n

/-- The numeric value of a decimal digit character, `none` for non-digits. -/
def digitVal (c : Char) : Option Nat :=
  if 48 ≤ c.toNat ∧ c.toNat ≤ 57 then some (c.toNat - 48) else none

/-- Left-to-right accumulation of decimal digits; `none` on any non-digit. -/
def parseDecCore : List Char → Nat → Option Nat
  | [], acc => some acc
  | c :: cs, acc =>
    match digitVal c with
    | some d => parseDecCore cs (acc * 10 + d)
    | none => none

/-- Rust's `str::parse::<u32>`: an optional leading `+`, then a nonempty
digit string whose value fits in 32 bits. -/
def parseU32 (l : List Char) : Option Nat :=
  let body := match l with
    | '+' :: rest => rest
    | _ => l
  match body with
  | [] => none
  | _ =>
    match parseDecCore body 0 with
    | some n => if n < 2 ^ 32 then some n else none
    | none => none

/-- `str::strip_prefix` over character lists. -/
def stripPref : List Char → List Char → Option (List Char)
  | [], s => some s
  | _ :: _, [] => none
  | p :: ps, c :: cs => if p = c then stripPref ps cs else none

/-- The characters of the literal `Second-`. -/
def secondDashChars : List Char :=
  ['S', 'e', 'c', 'o', 'n', 'd', '-']

/-- `timeout.rs`: `Timeout::try_from` — `to_text`, then the exact literal
`Infinite`, then the `Second-` prefix with a `u32` suffix. -/
def extractTimeout (v : Value) : Except ExtractErrorKind Timeout :=
  match toText v with
  | .error e => .error e
  | .ok t =>
    if t = "Infinite" then .ok .infinite
    else
      match stripPref secondDashChars t.data with
      | some stripped =>
        match parseU32 stripped with
        | some n => .ok (.seconds n)
        | none => .error (.other "Timeout element has invalid Second value")
      | none =>
        .error (.other "Timeout element must be \x27Infinite\x27 or \x27Second-<number>\x27")

/-- `timeout.rs`: `From<Timeout> for Value`. -/
def valueOfTimeout : Timeout → Value
  | .infinite => .text "Infinite"
  | .seconds n => .text (String.mk (secondDashChars ++ toDecimal n))

/-! ### Record and one-of elements -/

/-- `activelock.rs`: `ActiveLock::try_from` — required `lockscope`,
`locktype`, `depth`, `lockroot`; optional `owner`, `locktoken`; checked in
source order with fail-fast propagation. -/
def extractActiveLock (v : Value) : Except ExtractErrorKind ActiveLock :=
  match toMap v with
  | .error e => .error e
  | .ok m =>
    match vmGetE extractLockScope nameLockscope m with
    | some (.error e) => .error e
    | none => .error (.missingElement "lockscope")
    | some (.ok lockScope) =>
      match vmGetE extractLockType nameLocktype m with
      | some (.error e) => .error e
      | none => .error (.missingElement "locktype")
      | some (.ok lockType) =>
        match vmGetE extractDepth nameDepth m with
        | some (.error e) => .error e
        | none => .error (.missingElement "depth")
        | some (.ok depth) =>
          match vmGetE extractOwner nameOwner m with
          | some (.error e) => .error e
          | someOwner =>
            let owner := match someOwner with
              | some (.ok o) => some o
              | _ => none
            match vmGetE extractLockToken nameLocktoken m with
            | some (.error e) => .error e
            | someToken =>
              let lockToken := match someToken with
                | some (.ok t) => some t
                | _ => none
              match vmGetE extractLockRoot nameLockroot m with
              | some (.error e) => .error e
              | none => .error (.missingElement "lockroot")
              | some (.ok lockRoot) =>
                .ok ⟨lockScope, lockType, depth, owner, lockToken, lockRoot⟩

/-- `activelock.rs`: `From<ActiveLock> for Value` — inserts the required
children in source order and the optional children only when present. -/
def valueOfActiveLock (al : ActiveLock) : Value :=
  let m := vmInsert [] nameLockscope (valueOfLockScope al.lockScope)
  let m := vmInsert m nameLocktype (valueOfLockType al.lockType)
  let m := vmInsert m nameDepth (valueOfDepth al.depth)
  let m := match al.owner with
    | some o => vmInsert m nameOwner (valueOfOwner o)
    | none => m
  let m := match al.lockToken with
    | some t => vmInsert m nameLocktoken (valueOfLockToken t)
    | none => m
  let m := vmInsert m nameLockroot (valueOfLockRoot al.lockRoot)
  .map m

/-- `lockentry.rs`: `LockEntry::try_from` — the source's ordered match over
the `lockscope` and `locktype` accessor results. -/
def extractLockEntry (v : Value) : Except ExtractErrorKind LockEntry :=
  match toMap v with
  | .error e => .error e
  | .ok m =>
    match vmGetE extractLockScope nameLockscope m, vmGetE extractLockType nameLocktype m with
    | some (.ok lockScope), some (.ok lockType) => .ok ⟨lockScope, lockType⟩
    | some (.error e), _ => .error e
    | _, some (.error e) => .error e
    | none, _ => .error (.missingElement "lockscope")
    | _, none => .error (.missingElement "locktype")

/-- `lockentry.rs`: `From<LockEntry> for Value`. -/
def valueOfLockEntry (le : LockEntry) : Value :=
  let m := vmInsert [] nameLockscope (valueOfLockScope le.lockScope)
  let m := vmInsert m nameLocktype (valueOfLockType le.lockType)
  .map m

/-- `lockinfo.rs`: `LockInfo::try_from` — the source's ordered match over the
`lockscope`, `locktype` and `owner` accessor results. -/
def extractLockInfo (v : Value) : Except ExtractErrorKind LockInfo :=
  match toMap v with
  | .error e => .error e
  | .ok m =>
    match vmGetE extractLockScope nameLockscope m, vmGetE extractLockType nameLocktype m,
        vmGetE extractOwner nameOwner m with
    | some (.ok lockScope), some (.ok lockType), ownerOpt =>
      match ownerOpt with
      | some (.ok o) => .ok ⟨lockScope, lockType, some o⟩
      | some (.error e) => .error e
      | none => .ok ⟨lockScope, lockType, none⟩
    | some (.error e), _, _ => .error e
    | _, some (.error e), _ => .error e
    | none, _, _ => .error (.missingElement "lockscope")
    | _, none, _ => .error (.missingElement "locktype")

/-- `lockinfo.rs`: `From<LockInfo> for Value`. -/
def valueOfLockInfo (li : LockInfo) : Value :=
  let m := vmInsert [] nameLockscope (valueOfLockScope li.lockScope)
  let m := vmInsert m nameLocktype (valueOfLockType li.lockType)
  let m := match li.owner with
    | some o => vmInsert m nameOwner (valueOfOwner o)
    | none => m
  .map m

/-- `propertyupdate.rs`: `Set::try_from` — a required `prop` child. -/
def extractSet (v : Value) : Except ExtractErrorKind Set :=
  match toMap v with
  | .error e => .error e
  | .ok m =>
    match vmGetE extractProperties nameProp m with
    | some (.ok p) => .ok ⟨p⟩
    | some (.error e) => .error e
    | none => .error (.missingElement "prop")

/-- `propertyupdate.rs`: `From<Set> for Value`. -/
def valueOfSet (s : Set) : Value :=
  .map (vmInsert [] nameProp (valueOfProperties s.properties))

/-- `propertyupdate.rs`: `Remove::try_from` — a required `prop` child. -/
def extractRemove (v : Value) : Except ExtractErrorKind Remove :=
  match toMap v with
  | .error e => .error e
  | .ok m =>
    match vmGetE extractProperties nameProp m with
    | some (.ok p) => .ok ⟨p⟩
    | some (.error e) => .error e
    | none => .error (.missingElement "prop")

/-- `propertyupdate.rs`: `From<Remove> for Value`. -/
def valueOfRemove (r : Remove) : Value :=
  .map (vmInsert [] nameProp (valueOfProperties r.properties))

/-- `propertyupdate.rs`: `PropertyUpdate::try_from` — both children are
optional, each propagating its own extraction error when present. -/
def extractPropertyUpdate (v : Value) : Except ExtractErrorKind PropertyUpdate :=
  match toMap v with
  | .error e => .error e
  | .ok m =>
    match vmGetE extractSet nameSet m with
    | some (.error e) => .error e
    | setOpt =>
      let set := match setOpt with
        | some (.ok s) => some s
        | _ => none
      match vmGetE extractRemove nameRemove m with
      | some (.error e) => .error e
      | removeOpt =>
        let remove := match removeOpt with
          | some (.ok r) => some r
          | _ => none
        .ok ⟨set, remove⟩

/-- `propertyupdate.rs`: `From<PropertyUpdate> for Value` — inserts only the
children that are present. -/
def valueOfPropertyUpdate (pu : PropertyUpdate) : Value :=
  let m : ValueMap := []
  let m := match pu.set with
    | some s => vmInsert m nameSet (valueOfSet s)
    | none => m
  let m := match pu.remove with
    | some r => vmInsert m nameRemove (valueOfRemove r)
    | none => m
  .map m

/-- `propfind.rs`: `Propfind::try_from` — one-of probe over `propname`,
`allprop`, `prop`; any other combination yields
`ConflictingElements(["propname", "allprop", "include"])`.  In the `allprop`
branch a present `include` child runs `Include::try_from`, which is a
`todo!()` stub: that panic is modelled as `none`. -/
def extractPropfind (v : Value) : Option (Except ExtractErrorKind Propfind) :=
  match toMap v with
  | .error e => some (.error e)
  | .ok m =>
    match vmGetE extractPropname namePropname m, vmGetE extractAllprop nameAllprop m,
        vmGetE extractProperties nameProp m with
    | some _, none, none => some (.ok .propname)
    | none, some _, none =>
      match vmGet m nameInclude with
      | some _ => none
      | none => some (.ok (.allprop none))
    | none, none, some r =>
      match r with
      | .ok p => some (.ok (.prop p))
      | .error e => some (.error e)
    | _, _, _ => some (.error (.conflictingElements ["propname", "allprop", "include"]))

/-- `propfind.rs`: `From<Propfind> for Value` — the `Allprop` arm with a
present `include` calls `From<Include> for Value`, a `todo!()` stub whose
panic is modelled as `none`. -/
def valueOfPropfind : Propfind → Option Value
  | .propname => some (.map (vmInsert [] namePropname (valueOfPropname ⟨⟩)))
  | .allprop none => some (.map (vmInsert [] nameAllprop (valueOfAllprop ⟨⟩)))
  | .allprop (some _) => none
  | .prop props => some (.map (vmInsert [] nameProp (valueOfProperties props)))

/-- Whether a `Propfind` value carries a present `include` child, the shape
whose Value conversions are unimplemented stubs. -/
def propfindHasInclude : Propfind → Bool
  | .allprop (some _) => true
  | _ => false

/-! ## Helper lemmas: decimal rendering and parsing -/

theorem parseDecCore_append (l1 l2 : List Char) (acc : Nat) :
    parseDecCore (l1 ++ l2) acc =
      match parseDecCore l1 acc with
      | some m => parseDecCore l2 m
      | none => none := by
  induction l1 generalizing acc with
  | nil => rfl
  | cons c cs ih =>
    simp only [List.cons_append, parseDecCore]
    cases digitVal c with
    | none => rfl
    | some d => exact ih (acc * 10 + d)

theorem digitVal_digitChar (d : Nat) (h : d < 10) :
    digitVal (digitChar d) = some d := by
  interval_cases d <;> rfl

theorem parseDecCore_toDecimalAux (fuel : Nat) :
    ∀ n acc, n < 10 ^ fuel →
      parseDecCore (toDecimalAux fuel n) acc =
        some (acc * 10 ^ (toDecimalAux fuel n).length + n) := by
  induction fuel with
  | zero =>
    intro n acc h
    interval_cases n
    simp [toDecimalAux, parseDecCore]
  | succ f ih =>
    intro n acc h
    by_cases hn : n < 10
    · simp only [toDecimalAux, if_pos hn, parseDecCore, digitVal_digitChar n hn,
        List.length_singleton, pow_one]
    · have hdiv : n / 10 < 10 ^ f := by
        have : n < 10 ^ f * 10 := by
          have := h
          rw [pow_succ] at this
          exact this
        omega
      simp only [toDecimalAux, if_neg hn]
      rw [parseDecCore_append, ih (n / 10) acc hdiv]
      have hmod : n % 10 < 10 := Nat.mod_lt _ (by omega)
      simp only [parseDecCore, digitVal_digitChar (n % 10) hmod,
        List.length_append, List.length_singleton]
      have : (acc * 10 ^ (toDecimalAux f (n / 10)).length + n / 10) * 10 + n % 10 =
          acc * 10 ^ ((toDecimalAux f (n / 10)).length + 1) + n := by
        rw [pow_succ]
        have := Nat.div_add_mod n 10
        ring_nf
        omega
      rw [this]

theorem toDecimalAux_head (fuel : Nat) :
    ∀ n, ∃ d t, d < 10 ∧ toDecimalAux (fuel + 1) n = digitChar d :: t := by
  induction fuel with
  | zero =>
    intro n
    by_cases hn : n < 10
    · exact ⟨n, [], hn, by simp [toDecimalAux, if_pos hn]⟩
    · refine ⟨n % 10, [], Nat.mod_lt _ (by omega), ?_⟩
      simp [toDecimalAux, if_neg hn]
  | succ f ih =>
    intro n
    by_cases hn : n < 10
    · exact ⟨n, [], hn, by simp [toDecimalAux, if_pos hn]⟩
    · obtain ⟨d, t, hd, ht⟩ := ih (n / 10)
      refine ⟨d, t ++ [digitChar (n % 10)], hd, ?_⟩
      have hstep : toDecimalAux (f + 1 + 1) n =
          toDecimalAux (f + 1) (n / 10) ++ [digitChar (n % 10)] := by
        rw [toDecimalAux, if_neg hn]
      rw [hstep, ht, List.cons_append]

theorem digitChar_ne_plus (d : Nat) (h : d < 10) : digitChar d ≠ '+' := by
  interval_cases d <;> decide

theorem parseU32_cons (c : Char) (cs : List Char) (hc : c ≠ '+') :
    parseU32 (c :: cs) =
      match parseDecCore (c :: cs) 0 with
      | some m => if m < 2 ^ 32 then some m else none
      | none => none := by
  unfold parseU32
  split
  · rename_i heq
    rw [List.cons.injEq] at heq
    exact absurd heq.1 hc
  · rfl

theorem parseU32_toDecimal (n : Nat) (h : n < 2 ^ 32) :
    parseU32 (toDecimal n) = some n := by
  obtain ⟨d, t, hd, ht⟩ := toDecimalAux_head n n
  have hlt : n < 10 ^ (n + 1) :=
    lt_of_lt_of_le (Nat.lt_pow_self (by omega) n)
      (Nat.pow_le_pow_right (by omega) (by omega))
  have hparse := parseDecCore_toDecimalAux (n + 1) n 0 hlt
  rw [show toDecimal n = toDecimalAux (n + 1) n from rfl]
  rw [ht] at hparse ⊢
  rw [parseU32_cons (digitChar d) t (digitChar_ne_plus d hd)]
  simp only [hparse, Nat.zero_mul, Nat.zero_add, if_pos h]

theorem stripPref_append (p s : List Char) : stripPref p (p ++ s) = some s := by
  induction p with
  | nil => rfl
  | cons c cs ih => simp [stripPref, ih]

theorem timeout_seconds_roundTrip (n : Nat) (h : n < 2 ^ 32) :
    extractTimeout (valueOfTimeout (.seconds n)) = .ok (.seconds n) := by
  have hne : String.mk (secondDashChars ++ toDecimal n) ≠ "Infinite" := by
    intro heq
    have hdata : secondDashChars ++ toDecimal n = "Infinite".data :=
      congrArg String.data heq
    have hInf : "Infinite".data = ['I', 'n', 'f', 'i', 'n', 'i', 't', 'e'] := rfl
    rw [hInf] at hdata
    simp [secondDashChars] at hdata
  show extractTimeout (.text (String.mk (secondDashChars ++ toDecimal n))) = _
  unfold extractTimeout
  simp only [toText, if_neg hne]
  rw [stripPref_append]
  simp only [parseU32_toDecimal n h]

/-! ## Claims -/

/-- C1 counterexample: for the value `Propfind::Allprop { include: Some(Include(vec![])) }`
— constructible by the test suite — insertion hits the `todo!()` stub of
`From<Include> for Value` and panics (modelled as `none`), so
`extract(insert(v))` does not return `v`: there is no inserted Value at all. -/
theorem propfind_include_roundTrip_fails :
    valueOfPropfind (.allprop (some ⟨[]⟩)) = none
    ∧ (valueOfPropfind (.allprop (some ⟨[]⟩))).bind extractPropfind = none :=
  ⟨rfl, rfl⟩

/-- C1 (amended): `extract(insert(v)) = v` for every value of every schema
element type, except that a `Propfind::Allprop` with a present `include`
cannot be inserted at all (its conversion is the unimplemented `todo!()`
stub); `Timeout::Seconds` carries a `u32`, i.e. a natural number below
`2 ^ 32`. -/
theorem roundTrip_all_schema_types :
    (∀ d : Depth, extractDepth (valueOfDepth d) = .ok d)
    ∧ (∀ ls : LockScope, extractLockScope (valueOfLockScope ls) = .ok ls)
    ∧ (∀ lt : LockType, extractLockType (valueOfLockType lt) = .ok lt)
    ∧ (∀ o : Owner, extractOwner (valueOfOwner o) = .ok o)
    ∧ (∀ n : Nat, n < 2 ^ 32 →
        extractTimeout (valueOfTimeout (.seconds n)) = .ok (.seconds n))
    ∧ extractTimeout (valueOfTimeout .infinite) = .ok .infinite
    ∧ (∀ al : ActiveLock, extractActiveLock (valueOfActiveLock al) = .ok al)
    ∧ (∀ le : LockEntry, extractLockEntry (valueOfLockEntry le) = .ok le)
    ∧ (∀ li : LockInfo, extractLockInfo (valueOfLockInfo li) = .ok li)
    ∧ (∀ pu : PropertyUpdate,
        extractPropertyUpdate (valueOfPropertyUpdate pu) = .ok pu)
    ∧ (∀ p : Propfind, propfindHasInclude p = false →
        ∃ w, valueOfPropfind p = some w ∧ extractPropfind w = some (.ok p)) := by
  refine ⟨?_, ?_, ?_, ?_, ?_, rfl, ?_, ?_, ?_, ?_, ?_⟩
  · intro d; cases d <;> rfl
  · intro ls; cases ls <;> rfl
  · intro lt; cases lt; rfl
  · intro o; rfl
  · exact timeout_seconds_roundTrip
  · intro al
    obtain ⟨ls, lt, d, ow, tk, lr⟩ := al
    cases ls <;> cases lt <;> cases d <;> cases ow <;> cases tk <;> rfl
  · intro le
    obtain ⟨ls, lt⟩ := le
    cases ls <;> cases lt <;> rfl
  · intro li
    obtain ⟨ls, lt, ow⟩ := li
    cases ls <;> cases lt <;> cases ow <;> rfl
  · intro pu
    obtain ⟨s, r⟩ := pu
    cases s <;> cases r <;> rfl
  · intro p hp
    cases p with
    | propname => exact ⟨_, rfl, rfl⟩
    | prop props => exact ⟨_, rfl, rfl⟩
    | allprop inc =>
      cases inc with
      | none => exact ⟨_, rfl, rfl⟩
      | some i => simp [propfindHasInclude] at hp

/-- C1 witness: the round-trip theorem applied at concrete values — depth one,
a 600-second timeout, the test suite's shared/write/depth-1 active lock with
no owner and no token, and a `propfind` carrying an empty `prop`. -/
theorem roundTrip_all_schema_types_witness :
    extractDepth (valueOfDepth .one) = .ok .one
    ∧ (600 < 2 ^ 32
        ∧ extractTimeout (valueOfTimeout (.seconds 600)) = .ok (.seconds 600))
    ∧ extractActiveLock (valueOfActiveLock
        ⟨.shared, .write ⟨⟩, .one, none, none, ⟨⟨"http://example.com/resource"⟩⟩⟩) =
      .ok ⟨.shared, .write ⟨⟩, .one, none, none, ⟨⟨"http://example.com/resource"⟩⟩⟩
    ∧ (propfindHasInclude (.prop ⟨[]⟩) = false
        ∧ ∃ w, valueOfPropfind (.prop ⟨[]⟩) = some w
            ∧ extractPropfind w = some (.ok (.prop ⟨[]⟩))) := by
  obtain ⟨hd, -, -, -, ht, -, hal, -, -, -, hp⟩ := roundTrip_all_schema_types
  exact ⟨hd .one, ⟨by norm_num, ht 600 (by norm_num)⟩,
    hal ⟨.shared, .write ⟨⟩, .one, none, none, ⟨⟨"http://example.com/resource"⟩⟩⟩,
    ⟨rfl, hp (.prop ⟨[]⟩) rfl⟩⟩

/-- C2 counterexample: converting `Propfind::Allprop { include: Some(..) }`
into a Value does not succeed — `From<Include> for Value` is a `todo!()`
stub that panics (modelled as `none`), refuting totality of insertion. -/
theorem propfind_include_insertion_fails :
    valueOfPropfind (.allprop (some ⟨["getetag"]⟩)) = none :=
  rfl

/-- C2 (amended): insertion into a Value succeeds for every `Propfind` value
except those carrying a present `include` child, whose conversion is the
unimplemented `todo!()` stub; every other schema type's insertion is a total
function by construction. -/
theorem propfind_insertion_total_iff_no_include :
    ∀ p : Propfind, (valueOfPropfind p).isSome = !propfindHasInclude p := by
  intro p
  cases p with
  | propname => rfl
  | prop props => rfl
  | allprop inc => cases inc <;> rfl

/-- C3 counterexample: extracting `LockScope` from a map containing zero of
its alternatives yields `MissingElement("exclusive or shared")`, not a
`ConflictingElements` carrying the alternative names. -/
theorem lockscope_zero_alternatives_is_missingElement :
    extractLockScope (Value.map []) = .error (.missingElement "exclusive or shared")
    ∧ extractLockScope (Value.map []) ≠
        .error (.conflictingElements ["exclusive", "shared"]) :=
  ⟨rfl, by intro h; exact absurd (Except.error.inj h) (by decide)⟩

/-- C3 (amended): for a map in which the number of present alternatives is
not exactly one (zero, or two or more), `Propfind` extraction yields
`ConflictingElements(["propname", "allprop", "include"])`, while `LockScope`
extraction yields `MissingElement("exclusive or shared")` — the two one-of
types use different error kinds. -/
theorem oneOf_zero_or_multiple_alternatives :
    (∀ m : ValueMap,
      (vmGet m nameExclusive).isSome = (vmGet m nameShared).isSome →
      extractLockScope (.map m) = .error (.missingElement "exclusive or shared"))
    ∧ (∀ m : ValueMap,
      ((if (vmGet m namePropname).isSome then 1 else 0)
        + (if (vmGet m nameAllprop).isSome then 1 else 0)
        + (if (vmGet m nameProp).isSome then 1 else 0) : Nat) ≠ 1 →
      extractPropfind (.map m) =
        some (.error (.conflictingElements ["propname", "allprop", "include"]))) := by
  constructor
  · intro m h
    simp only [extractLockScope, toMap, vmGetE]
    cases he : vmGet m nameExclusive <;> cases hs : vmGet m nameShared <;>
      simp_all
  · intro m h
    simp only [extractPropfind, toMap, vmGetE]
    cases hp : vmGet m namePropname <;> cases ha : vmGet m nameAllprop <;>
      cases hq : vmGet m nameProp <;> simp_all

/-- C3 witness: the amended theorem at concrete maps — `LockScope` from a map
with both alternatives, and `Propfind` from a map with both `propname` and
`allprop` present. -/
theorem oneOf_zero_or_multiple_alternatives_witness :
    ((vmGet [(nameExclusive, Value.empty), (nameShared, Value.empty)] nameExclusive).isSome
        = (vmGet [(nameExclusive, Value.empty), (nameShared, Value.empty)] nameShared).isSome
      ∧ extractLockScope (.map [(nameExclusive, Value.empty), (nameShared, Value.empty)]) =
          .error (.missingElement "exclusive or shared"))
    ∧ (((if (vmGet [(namePropname, Value.empty), (nameAllprop, Value.empty)] namePropname).isSome
          then 1 else 0)
        + (if (vmGet [(namePropname, Value.empty), (nameAllprop, Value.empty)] nameAllprop).isSome
          then 1 else 0)
        + (if (vmGet [(namePropname, Value.empty), (nameAllprop, Value.empty)] nameProp).isSome
          then 1 else 0) : Nat) ≠ 1
      ∧ extractPropfind (.map [(namePropname, Value.empty), (nameAllprop, Value.empty)]) =
          some (.error (.conflictingElements ["propname", "allprop", "include"]))) := by
  obtain ⟨h1, h2⟩ := oneOf_zero_or_multiple_alternatives
  refine ⟨⟨rfl, h1 _ rfl⟩, ⟨by decide, h2 _ (by decide)⟩⟩

/-- C4: extracting a record from a map lacking a required child's key, the
other children being absent or well-formed, fails with `MissingElement`
naming that key's local name — for `ActiveLock`: `lockscope`, `locktype`,
`depth`, `lockroot`; for `LockEntry`: `lockscope`, and `locktype` when
`lockscope` is present. -/
theorem record_missing_required_child :
    (∀ m : ValueMap, vmGet m nameLockscope = none →
      extractActiveLock (.map m) = .error (.missingElement "lockscope"))
    ∧ (∀ (m : ValueMap) (ls : LockScope),
      vmGetE extractLockScope nameLockscope m = some (.ok ls) →
      vmGet m nameLocktype = none →
      extractActiveLock (.map m) = .error (.missingElement "locktype"))
    ∧ (∀ (m : ValueMap) (ls : LockScope) (lt : LockType),
      vmGetE extractLockScope nameLockscope m = some (.ok ls) →
      vmGetE extractLockType nameLocktype m = some (.ok lt) →
      vmGet m nameDepth = none →
      extractActiveLock (.map m) = .error (.missingElement "depth"))
    ∧ (∀ (m : ValueMap) (ls : LockScope) (lt : LockType) (d : Depth),
      vmGetE extractLockScope nameLockscope m = some (.ok ls) →
      vmGetE extractLockType nameLocktype m = some (.ok lt) →
      vmGetE extractDepth nameDepth m = some (.ok d) →
      (vmGet m nameOwner = none
        ∨ ∃ o, vmGetE extractOwner nameOwner m = some (.ok o)) →
      (vmGet m nameLocktoken = none
        ∨ ∃ t, vmGetE extractLockToken nameLocktoken m = some (.ok t)) →
      vmGet m nameLockroot = none →
      extractActiveLock (.map m) = .error (.missingElement "lockroot"))
    ∧ (∀ m : ValueMap, vmGet m nameLockscope = none →
      (vmGet m nameLocktype = none
        ∨ ∃ lt, vmGetE extractLockType nameLocktype m = some (.ok lt)) →
      extractLockEntry (.map m) = .error (.missingElement "lockscope"))
    ∧ (∀ (m : ValueMap) (ls : LockScope),
      vmGetE extractLockScope nameLockscope m = some (.ok ls) →
      vmGet m nameLocktype = none →
      extractLockEntry (.map m) = .error (.missingElement "locktype")) := by
  refine ⟨?_, ?_, ?_, ?_, ?_, ?_⟩
  · intro m h
    have h1 : vmGetE extractLockScope nameLockscope m = none := by
      simp [vmGetE, h]
    simp [extractActiveLock, toMap, h1]
  · intro m ls h1 h2
    have h2e : vmGetE extractLockType nameLocktype m = none := by
      simp [vmGetE, h2]
    simp [extractActiveLock, toMap, h1, h2e]
  · intro m ls lt h1 h2 h3
    have h3e : vmGetE extractDepth nameDepth m = none := by
      simp [vmGetE, h3]
    simp [extractActiveLock, toMap, h1, h2, h3e]
  · intro m ls lt d h1 h2 h3 how htk h6
    have h6e : vmGetE extractLockRoot nameLockroot m = none := by
      simp [vmGetE, h6]
    rcases how with how | ⟨o, how⟩ <;> rcases htk with htk | ⟨t, htk⟩ <;>
      [skip; skip; skip; skip] <;>
      first
      | (have howe : vmGetE extractOwner nameOwner m = none := by simp [vmGetE, how]
         have htke : vmGetE extractLockToken nameLocktoken m = none := by simp [vmGetE, htk]
         simp [extractActiveLock, toMap, h1, h2, h3, howe, htke, h6e])
      | (have howe : vmGetE extractOwner nameOwner m = none := by simp [vmGetE, how]
         simp [extractActiveLock, toMap, h1, h2, h3, howe, htk, h6e])
      | (have htke : vmGetE extractLockToken nameLocktoken m = none := by simp [vmGetE, htk]
         simp [extractActiveLock, toMap, h1, h2, h3, how, htke, h6e])
      | simp [extractActiveLock, toMap, h1, h2, h3, how, htk, h6e]
  · intro m h1 h2
    have h1e : vmGetE extractLockScope nameLockscope m = none := by
      simp [vmGetE, h1]
    rcases h2 with h2 | ⟨lt, h2⟩
    · have h2e : vmGetE extractLockType nameLocktype m = none := by
        simp [vmGetE, h2]
      simp [extractLockEntry, toMap, h1e, h2e]
    · simp [extractLockEntry, toMap, h1e, h2]
  · intro m ls h1 h2
    have h2e : vmGetE extractLockType nameLocktype m = none := by
      simp [vmGetE, h2]
    simp [extractLockEntry, toMap, h1, h2e]

/-- C4 witness: the missing-required-child theorem at concrete maps — the
empty map, and maps holding only the earlier required children. -/
theorem record_missing_required_child_witness :
    extractActiveLock (.map []) = .error (.missingElement "lockscope")
    ∧ extractActiveLock (.map [(nameLockscope, valueOfLockScope .exclusive)]) =
        .error (.missingElement "locktype")
    ∧ extractActiveLock (.map [(nameLockscope, valueOfLockScope .exclusive),
        (nameLocktype, valueOfLockType (.write ⟨⟩))]) =
        .error (.missingElement "depth")
    ∧ extractActiveLock (.map [(nameLockscope, valueOfLockScope .exclusive),
        (nameLocktype, valueOfLockType (.write ⟨⟩)), (nameDepth, valueOfDepth .one)]) =
        .error (.missingElement "lockroot")
    ∧ extractLockEntry (.map []) = .error (.missingElement "lockscope")
    ∧ extractLockEntry (.map [(nameLockscope, valueOfLockScope .exclusive)]) =
        .error (.missingElement "locktype") := by
  obtain ⟨h1, h2, h3, h4, h5, h6⟩ := record_missing_required_child
  exact ⟨h1 [] rfl,
    h2 _ .exclusive rfl rfl,
    h3 _ .exclusive (.write ⟨⟩) rfl rfl rfl,
    h4 _ .exclusive (.write ⟨⟩) .one rfl rfl rfl (Or.inl rfl) (Or.inl rfl) rfl,
    h5 [] rfl (Or.inl rfl),
    h6 _ .exclusive rfl rfl⟩

/-- C5: `Depth` extraction succeeds exactly on the literals `0`, `1`,
`infinity`; any other text fails with `Other(..)`; any non-text Value fails
with `InvalidValueType { expected: "text", got: <variant name> }`. -/
theorem depth_literal_extraction :
    extractDepth (.text "0") = .ok .zero
    ∧ extractDepth (.text "1") = .ok .one
    ∧ extractDepth (.text "infinity") = .ok .infinity
    ∧ (∀ s : String, s ≠ "0" → s ≠ "1" → s ≠ "infinity" →
        extractDepth (.text s) =
          .error (.other "depth element must have value of 0, 1, or infinity"))
    ∧ extractDepth .empty = .error (.invalidValueType "text" "empty")
    ∧ (∀ m : ValueMap,
        extractDepth (.map m) = .error (.invalidValueType "text" "map"))
    ∧ (∀ l : List Value,
        extractDepth (.list l) = .error (.invalidValueType "text" "list")) := by
  refine ⟨rfl, rfl, rfl, ?_, rfl, fun _ => rfl, fun _ => rfl⟩
  intro s h0 h1 hi
  simp [extractDepth, h0, h1, hi]

/-- C5 witness: the depth theorem applied at the text `2`. -/
theorem depth_literal_extraction_witness :
    ("2" : String) ≠ "0" ∧ ("2" : String) ≠ "1" ∧ ("2" : String) ≠ "infinity"
    ∧ extractDepth (.text "2") =
        .error (.other "depth element must have value of 0, 1, or infinity") := by
  obtain ⟨-, -, -, h, -, -, -⟩ := depth_literal_extraction
  exact ⟨by decide, by decide, by decide, h "2" (by decide) (by decide) (by decide)⟩

theorem secondDash_ne_infinite (l : List Char) :
    String.mk (secondDashChars ++ l) ≠ "Infinite" := by
  intro heq
  have hdata : secondDashChars ++ l = "Infinite".data := congrArg String.data heq
  have hInf : "Infinite".data = ['I', 'n', 'f', 'i', 'n', 'i', 't', 'e'] := rfl
  rw [hInf] at hdata
  simp [secondDashChars] at hdata

theorem extractTimeout_secondDash (l : List Char) :
    extractTimeout (.text (String.mk (secondDashChars ++ l))) =
      match parseU32 l with
      | some n => .ok (.seconds n)
      | none => .error (.other "Timeout element has invalid Second value") := by
  unfold extractTimeout
  simp only [toText, if_neg (secondDash_ne_infinite l)]
  rw [stripPref_append]

/-- C6: `Timeout` extraction maps the literal `Infinite` to the infinite
variant and `Second-` followed by a decimal `u32` to `Seconds(n)`
(`Second-600` gives 600); a `Second-` text whose suffix does not parse
(`Second-abc`) fails with `Other(..)`, and any other text fails with
`Other(..)` as well — never `MissingElement`. -/
theorem timeout_text_extraction :
    extractTimeout (.text "Infinite") = .ok .infinite
    ∧ (∀ (l : List Char) (n : Nat), parseU32 l = some n →
        extractTimeout (.text (String.mk (secondDashChars ++ l))) =
          .ok (.seconds n))
    ∧ extractTimeout (.text "Second-600") = .ok (.seconds 600)
    ∧ extractTimeout (.text "Second-abc") =
        .error (.other "Timeout element has invalid Second value")
    ∧ (∀ l : List Char, parseU32 l = none →
        extractTimeout (.text (String.mk (secondDashChars ++ l))) =
          .error (.other "Timeout element has invalid Second value"))
    ∧ (∀ t : String, t ≠ "Infinite" → stripPref secondDashChars t.data = none →
        extractTimeout (.text t) =
          .error (.other "Timeout element must be \x27Infinite\x27 or \x27Second-<number>\x27")) := by
  refine ⟨rfl, ?_, rfl, rfl, ?_, ?_⟩
  · intro l n h
    rw [extractTimeout_secondDash]
    simp only [h]
  · intro l h
    rw [extractTimeout_secondDash]
    simp only [h]
  · intro t h1 h2
    unfold extractTimeout
    simp only [toText, if_neg h1, h2]

/-- C6 witness: the timeout theorem applied at the suffixes `600` (parsing to
600), `abc` (failing to parse), and the unrelated text `whatever`. -/
theorem timeout_text_extraction_witness :
    parseU32 ['6', '0', '0'] = some 600
    ∧ extractTimeout (.text (String.mk (secondDashChars ++ ['6', '0', '0']))) =
        .ok (.seconds 600)
    ∧ parseU32 ['a', 'b', 'c'] = none
    ∧ extractTimeout (.text (String.mk (secondDashChars ++ ['a', 'b', 'c']))) =
        .error (.other "Timeout element has invalid Second value")
    ∧ ("whatever" : String) ≠ "Infinite"
    ∧ stripPref secondDashChars ("whatever" : String).data = none
    ∧ extractTimeout (.text "whatever") =
        .error (.other "Timeout element must be \x27Infinite\x27 or \x27Second-<number>\x27") := by
  obtain ⟨-, h2, -, -, h5, h6⟩ := timeout_text_extraction
  exact ⟨rfl, h2 ['6', '0', '0'] 600 rfl, rfl, h5 ['a', 'b', 'c'] rfl,
    by decide, rfl, h6 "whatever" (by decide) rfl⟩

/-- C7: inserting an `ActiveLock` whose `owner` and `lock_token` are `None`
yields a map with no entry under the `owner` or `locktoken` keys — the
optional children are omitted entirely — while the `lockscope`, `locktype`,
`depth` and `lockroot` entries are all present. -/
theorem activelock_omits_absent_optionals :
    ∀ al : ActiveLock, al.owner = none → al.lockToken = none →
      ∃ m, valueOfActiveLock al = .map m
        ∧ vmGet m nameOwner = none
        ∧ vmGet m nameLocktoken = none
        ∧ (vmGet m nameLockscope).isSome = true
        ∧ (vmGet m nameLocktype).isSome = true
        ∧ (vmGet m nameDepth).isSome = true
        ∧ (vmGet m nameLockroot).isSome = true := by
  intro al h1 h2
  obtain ⟨ls, lt, d, ow, tk, lr⟩ := al
  cases ow with
  | some o => exact absurd h1 (by simp)
  | none =>
    cases tk with
    | some t => exact absurd h2 (by simp)
    | none => exact ⟨_, rfl, rfl, rfl, rfl, rfl, rfl, rfl⟩

/-- C7 witness: the omission theorem at the test suite's serialize value — a
shared/write/depth-1 lock with no owner and no token. -/
theorem activelock_omits_absent_optionals_witness :
    (ActiveLock.owner ⟨.shared, .write ⟨⟩, .one, none, none,
        ⟨⟨"http://example.com/resource"⟩⟩⟩ = none)
    ∧ ∃ m, valueOfActiveLock ⟨.shared, .write ⟨⟩, .one, none, none,
          ⟨⟨"http://example.com/resource"⟩⟩⟩ = .map m
        ∧ vmGet m nameOwner = none
        ∧ vmGet m nameLocktoken = none
        ∧ (vmGet m nameLockscope).isSome = true
        ∧ (vmGet m nameLocktype).isSome = true
        ∧ (vmGet m nameDepth).isSome = true
        ∧ (vmGet m nameLockroot).isSome = true :=
  ⟨rfl, activelock_omits_absent_optionals
    ⟨.shared, .write ⟨⟩, .one, none, none, ⟨⟨"http://example.com/resource"⟩⟩⟩ rfl rfl⟩

/-- C8: when an optional child's key is present but its extraction fails, the
record extraction returns that error unchanged — `owner` and `locktoken` in
`ActiveLock`, `owner` in `LockInfo` — never succeeding with the field absent. -/
theorem optional_child_error_propagates :
    (∀ (m : ValueMap) (e : ExtractErrorKind) (ls : LockScope) (lt : LockType) (d : Depth),
      vmGetE extractLockScope nameLockscope m = some (.ok ls) →
      vmGetE extractLockType nameLocktype m = some (.ok lt) →
      vmGetE extractDepth nameDepth m = some (.ok d) →
      vmGetE extractOwner nameOwner m = some (.error e) →
      extractActiveLock (.map m) = .error e)
    ∧ (∀ (m : ValueMap) (e : ExtractErrorKind) (ls : LockScope) (lt : LockType) (d : Depth),
      vmGetE extractLockScope nameLockscope m = some (.ok ls) →
      vmGetE extractLockType nameLocktype m = some (.ok lt) →
      vmGetE extractDepth nameDepth m = some (.ok d) →
      vmGet m nameOwner = none →
      vmGetE extractLockToken nameLocktoken m = some (.error e) →
      extractActiveLock (.map m) = .error e)
    ∧ (∀ (m : ValueMap) (e : ExtractErrorKind) (ls : LockScope) (lt : LockType),
      vmGetE extractLockScope nameLockscope m = some (.ok ls) →
      vmGetE extractLockType nameLocktype m = some (.ok lt) →
      vmGetE extractOwner nameOwner m = some (.error e) →
      extractLockInfo (.map m) = .error e) := by
  refine ⟨?_, ?_, ?_⟩
  · intro m e ls lt d h1 h2 h3 h4
    simp [extractActiveLock, toMap, h1, h2, h3, h4]
  · intro m e ls lt d h1 h2 h3 h4 h5
    have h4e : vmGetE extractOwner nameOwner m = none := by simp [vmGetE, h4]
    simp [extractActiveLock, toMap, h1, h2, h3, h4e, h5]
  · intro m e ls lt h1 h2 h3
    simp [extractLockInfo, toMap, h1, h2, h3]

/-- C8 witness: the propagation theorem at concrete maps whose `owner`
(resp. `locktoken`) child is a text node, so the child extraction fails with
`InvalidValueType { expected: "map", got: "text" }`. -/
theorem optional_child_error_propagates_witness :
    extractActiveLock (.map [(nameLockscope, valueOfLockScope .exclusive),
        (nameLocktype, valueOfLockType (.write ⟨⟩)), (nameDepth, valueOfDepth .one),
        (nameOwner, .text "bad")]) =
      .error (.invalidValueType "map" "text")
    ∧ extractActiveLock (.map [(nameLockscope, valueOfLockScope .exclusive),
        (nameLocktype, valueOfLockType (.write ⟨⟩)), (nameDepth, valueOfDepth .one),
        (nameLocktoken, .text "bad")]) =
      .error (.invalidValueType "map" "text")
    ∧ extractLockInfo (.map [(nameLockscope, valueOfLockScope .exclusive),
        (nameLocktype, valueOfLockType (.write ⟨⟩)), (nameOwner, .text "bad")]) =
      .error (.invalidValueType "map" "text") := by
  obtain ⟨h1, h2, h3⟩ := optional_child_error_propagates
  exact ⟨h1 _ _ .exclusive (.write ⟨⟩) .one rfl rfl rfl rfl,
    h2 _ _ .exclusive (.write ⟨⟩) .one rfl rfl rfl rfl rfl,
    h3 _ _ .exclusive (.write ⟨⟩) rfl rfl rfl⟩

/-- C9: every marker element (`Exclusive`, `Shared`, `Write`, `Propname`,
`Allprop`) extracts successfully from any Document Value whatsoever, and its
insertion always produces `Value::Empty`. -/
theorem marker_elements_extract_and_insert :
    (∀ v : Value, extractExclusive v = .ok ⟨⟩)
    ∧ (∀ v : Value, extractShared v = .ok ⟨⟩)
    ∧ (∀ v : Value, extractWrite v = .ok ⟨⟩)
    ∧ (∀ v : Value, extractPropname v = .ok ⟨⟩)
    ∧ (∀ v : Value, extractAllprop v = .ok ⟨⟩)
    ∧ (∀ x : Exclusive, valueOfExclusive x = .empty)
    ∧ (∀ x : Shared, valueOfShared x = .empty)
    ∧ (∀ x : Write, valueOfWrite x = .empty)
    ∧ (∀ x : Propname, valueOfPropname x = .empty)
    ∧ (∀ x : Allprop, valueOfAllprop x = .empty) :=
  ⟨fun _ => rfl, fun _ => rfl, fun _ => rfl, fun _ => rfl, fun _ => rfl,
    fun _ => rfl, fun _ => rfl, fun _ => rfl, fun _ => rfl, fun _ => rfl⟩

/-- C10: `PropertyUpdate` extraction imposes no at-least-one constraint on
its two optional children: whenever each of `set` and `remove` is absent or
extracts successfully, the extraction succeeds with exactly the
corresponding optional fields — in particular the empty map yields
`{ set: None, remove: None }`. -/
theorem propertyupdate_no_at_least_one_constraint :
    ∀ (m : ValueMap) (os : Option Set) (orm : Option Remove),
      vmGetE extractSet nameSet m = os.map Except.ok →
      vmGetE extractRemove nameRemove m = orm.map Except.ok →
      extractPropertyUpdate (.map m) = .ok ⟨os, orm⟩ := by
  intro m os orm h1 h2
  cases os <;> cases orm <;>
    simp_all [extractPropertyUpdate, toMap, Option.map]

/-- C10 witness: the theorem at the empty map (both children absent) and at
a map carrying both a valid `set` and a valid `remove` child. -/
theorem propertyupdate_no_at_least_one_constraint_witness :
    extractPropertyUpdate (.map []) = .ok ⟨none, none⟩
    ∧ extractPropertyUpdate (.map [(nameSet, valueOfSet ⟨⟨[]⟩⟩),
        (nameRemove, valueOfRemove ⟨⟨[]⟩⟩)]) =
      .ok ⟨some ⟨⟨[]⟩⟩, some ⟨⟨[]⟩⟩⟩ :=
  ⟨propertyupdate_no_at_least_one_constraint [] none none rfl rfl,
    propertyupdate_no_at_least_one_constraint
      [(nameSet, valueOfSet ⟨⟨[]⟩⟩), (nameRemove, valueOfRemove ⟨⟨[]⟩⟩)]
      (some ⟨⟨[]⟩⟩) (some ⟨⟨[]⟩⟩) rfl rfl⟩

end WebdavXml
